import Mathlib

/-!
Shallow embedding of the mcpi wire-protocol / marshalling layer
(`src/mcpi/util.py`, `src/mcpi/connection.py`, `src/mcpi/minecraft.py`).

Modelling conventions:
* Python values that can appear in an outgoing argument list are modelled
  by the inductive `PyVal` (integers, strings, byte strings, `None`, and
  nested lists).  Byte strings are kept as their list of byte values.
* Python byte strings on the wire are modelled as UTF-8 text (`String`),
  since every claim is about textual content.
* A Python function that can raise is modelled with an explicit result
  type (`PyResult`); `try/except ValueError` becomes a `match` on it.
-/

namespace Mcpi

/-- A Python value that may appear in an argument list of a request:
an `int`, a `str`, a `bytes` object (list of byte values 0..255),
`None`, or a (possibly nested) list of such values. -/
inductive PyVal where
  | int : Int → PyVal
  | str : String → PyVal
  | bytes : List Nat → PyVal
  | none : PyVal
  | list : List PyVal → PyVal

/-- `isinstance(e, Iterable)`: strings, bytes and lists are iterable;
ints and `None` are not. -/
def PyVal.isIterable : PyVal → Bool
  | .str _ => true
  | .bytes _ => true
  | .list _ => true
  | _ => false

/-- `isinstance(e, str)`. -/
def PyVal.isStr : PyVal → Bool
  | .str _ => true
  | _ => false

/-- `isinstance(e, bytes)`. -/
def PyVal.isBytes : PyVal → Bool
  | .bytes _ => true
  | _ => false

/-- `isinstance(e, list)`. -/
def PyVal.isList : PyVal → Bool
  | .list _ => true
  | _ => false

mutual

/-- `util.flatten` applied to one element `e` of the iterated sequence:
if `e` is iterable and not a `str`, recursively flatten it, otherwise
yield `e` itself.  Iterating a `bytes` value yields its integer byte
values, each of which is non-iterable and hence yielded as an atom. -/
def flattenOne : PyVal → List PyVal
  | .list l => flatten l
  | .bytes bs => bs.map (fun b => PyVal.int (Int.ofNat b))
  | e => [e]

/-- `util.flatten(l)`: generator yielding, for each element of `l` in
order, either the element itself (non-iterable or `str`) or its
recursive flattening. -/
def flatten : List PyVal → List PyVal
  | [] => []
  | e :: rest => flattenOne e ++ flatten rest

end

/-- Python `str()` of an atom produced by `flatten`:
`str(int)` is its decimal form, `str(s)` is `s` itself, `str(None)` is
the literal text `None`.  The container cases are unreachable after
flattening (see `flatten_no_containers`) and map to `""`. -/
def pyStr : PyVal → String
  | .int n => toString n
  | .str s => s
  | .none => "None"
  | .bytes _ => ""
  | .list _ => ""

/-- `util.flatten_parameters_to_bytestring(l)`:
`b",".join(map(_misc_to_bytes, flatten(l)))` where `_misc_to_bytes(m)`
is `str(m).encode("utf8")`; modelled at the text level. -/
def flatten_parameters_to_bytestring (l : List PyVal) : String :=
  String.intercalate "," ((flatten l).map pyStr)

/-- `Connection._send`: the request frame
`f + "(" + flatten_parameters_to_bytestring(data) + ")" + "\n"`. -/
def encodeRequest (f : String) (data : List PyVal) : String :=
  f ++ "(" ++ flatten_parameters_to_bytestring data ++ ")" ++ "\n"

/-- A Python whitespace character, as stripped by `str.strip()`. -/
def isPySpace (c : Char) : Bool :=
  c = ' ' || c = '\t' || c = '\n' || c = '\r' || c = '\x0b' || c = '\x0c'

/-- Python `s.strip()`: remove leading and trailing whitespace. -/
def pyStrip (s : String) : String :=
  String.mk (((s.data.dropWhile isPySpace).reverse.dropWhile isPySpace).reverse)

/-- Python `s.rstrip("\n")`: remove every trailing newline character. -/
def rstripNewline (s : String) : String :=
  String.mk ((s.data.reverse.dropWhile (fun c => c = '\n')).reverse)

/-- Result of `Connection._receive` on one raw reply line: either the
newline-trimmed text, or a raised `RequestError` with its message. -/
inductive ReceiveResult where
  | ok : String → ReceiveResult
  | requestError : String → ReceiveResult
deriving DecidableEq, Repr

/-- `Connection.RequestFailed`, the reserved failure sentinel text. -/
def RequestFailed : String := "Fail"

/-- `Connection._receive`, given the last-sent request `lastSent` and the
raw line read from the socket: trim trailing newlines; if the result
equals the sentinel, raise `RequestError("%s failed" % lastSent.strip())`
(the request text is modelled as text, so Python's `b'...'` repr wrapper
around the bytes value is omitted); otherwise return the trimmed line. -/
def receive (lastSent : String) (line : String) : ReceiveResult :=
  let s := rstripNewline line
  if s = RequestFailed then
    ReceiveResult.requestError (pyStrip lastSent ++ " failed")
  else
    ReceiveResult.ok s

/-- Outcome of a Python call that can raise: a value, a raised
`ValueError`, or a raised `TypeError`. -/
inductive PyResult (α : Type) where
  | ok : α → PyResult α
  | valueError : PyResult α
  | typeError : PyResult α

/-- `Connection._parseScalar(converter, string)`: call the converter;
a raised `ValueError` is caught and turned into `None`; any other
exception propagates. -/
def parseScalar {α : Type} (conv : String → PyResult α) (string : String) :
    PyResult (Option α) :=
  match conv string with
  | .ok a => .ok (some a)
  | .valueError => .ok Option.none
  | .typeError => .typeError

/-- Digit tail of a Python integer literal, with single underscores
allowed between digits; `acc` holds the value of the digits read so
far.  Rejects a trailing underscore and doubled underscores. -/
def pyDigitsTail : List Char → Nat → Option Nat
  | [], acc => some acc
  | '_' :: c :: rest, acc =>
      if c.isDigit then pyDigitsTail rest (acc * 10 + (c.toNat - 48)) else Option.none
  | ['_'], _ => Option.none
  | c :: rest, acc =>
      if c.isDigit then pyDigitsTail rest (acc * 10 + (c.toNat - 48)) else Option.none

/-- Unsigned decimal part of Python `int(str)`: one leading digit, then
digits possibly separated by single underscores. -/
def pyDigits : List Char → Option Nat
  | c :: rest => if c.isDigit then pyDigitsTail rest (c.toNat - 48) else Option.none
  | [] => Option.none

/-- Python `int(s)` on a decimal string: surrounding whitespace is
ignored, an optional single `+`/`-` sign precedes the digits; any other
shape raises `ValueError` (modelled as `none`). -/
def pyIntParse (s : String) : Option Int :=
  match (s.data.dropWhile isPySpace).reverse.dropWhile isPySpace |>.reverse with
  | '+' :: rest => (pyDigits rest).map Int.ofNat
  | '-' :: rest => (pyDigits rest).map (fun n => -(Int.ofNat n))
  | cs => (pyDigits cs).map Int.ofNat

/-- Python's `int` used as a converter: parses or raises `ValueError`. -/
def pyIntConv (s : String) : PyResult Int :=
  match pyIntParse s with
  | some n => .ok n
  | Option.none => .valueError

/-- Modelled from the spec: `Vec3`, the 3-component coordinate type
imported from the repository's `vec3` module, whose source file is not
under `src/`; per the spec a vector is a composite 3-tuple, so its
constructor takes exactly three components. -/
structure Vec3 (α : Type) where
  x : α
  y : α
  z : α

/-- Python `s.split(sep)` scanning: at each position, a match of the
separator ends the current piece, otherwise the character joins the
current piece.  The fuel argument bounds the recursion by the input
length; each step consumes at least one character, so the fuel never
runs out when started at the input length. -/
def pySplitAux (sep : List Char) : List Char → Nat → List (List Char)
  | cs, 0 => [cs]
  | [], _ + 1 => [[]]
  | c :: cs, n + 1 =>
    if sep.isPrefixOf (c :: cs) then
      [] :: pySplitAux sep ((c :: cs).drop sep.length) n
    else
      match pySplitAux sep cs n with
      | [] => [[c]]
      | p :: ps => (c :: p) :: ps

/-- Python `s.split(sep)` for a non-empty separator string: left-to-right
non-overlapping splitting; `"".split(sep)` is `[""]`.  (Python raises
`ValueError` on an empty separator; that case is never exercised by the
code or the theorems and maps to `[s]` here.) -/
def pySplit (s : String) (sep : String) : List String :=
  if sep = "" then [s]
  else (pySplitAux sep.data s.data s.data.length).map String.mk

/-- Python `list(map(converter, fields))`: converts left to right,
re-raising the first exception the converter raises. -/
def mapConv {α : Type} (conv : String → PyResult α) :
    List String → PyResult (List α)
  | [] => .ok []
  | s :: rest =>
    match conv s with
    | .ok a =>
      match mapConv conv rest with
      | .ok l => .ok (a :: l)
      | .valueError => .valueError
      | .typeError => .typeError
    | .valueError => .valueError
    | .typeError => .typeError

/-- `Vec3(*fields)`: applying the 3-argument constructor to an unpacked
argument list of any other length raises `TypeError`. -/
def applyVec3 {α : Type} : List α → PyResult (Vec3 α)
  | [a, b, c] => .ok ⟨a, b, c⟩
  | _ => .typeError

/-- `Connection._parseVec3(converter, string)`:
`Vec3(*list(map(converter, string.split(","))))` inside a
`try/except ValueError` that returns `None`; a `TypeError` from the
constructor call is not caught and propagates. -/
def parseVec3 {α : Type} (conv : String → PyResult α) (string : String) :
    PyResult (Option (Vec3 α)) :=
  match mapConv conv (pySplit string ",") with
  | .valueError => .ok Option.none
  | .typeError => .typeError
  | .ok fields =>
    match applyVec3 fields with
    | .ok v => .ok (some v)
    | .valueError => .ok Option.none
    | .typeError => .typeError

/-- Python `s.split(sep, maxsplit=n)` for the single-character separator
`","`: split at most `n` times, scanning left to right. -/
def pySplitN (sepc : Char) : Nat → List Char → List (List Char)
  | _, [] => [[]]
  | 0, cs => [cs]
  | Nat.succ n, c :: cs =>
    if c = sepc then
      [] :: pySplitN sepc n cs
    else
      match pySplitN sepc (Nat.succ n) cs with
      | [] => [[c]]
      | p :: ps => (c :: p) :: ps

/-- `o.split(",", **kwargs)` as used by `sendReceiveObjectList`: with no
`maxsplit` keyword it is a plain split on `","`, otherwise a split
bounded by `maxsplit`. -/
def splitFields (o : String) (maxsplit : Option Nat) : List String :=
  match maxsplit with
  | Option.none => pySplit o ","
  | some n => (pySplitN ',' n o.data).map String.mk

/-- `Connection._unmarshalList(dataStr, sep=...)`:
`[] if not dataStr else dataStr.split(sep)`. -/
def unmarshalList (dataStr : String) (sep : String) : List String :=
  if dataStr = "" then [] else pySplit dataStr sep

/-- Decoding step of `Connection.sendReceiveList` on the raw reply:
`kwargs.setdefault("sep", "|")` then `_unmarshalList`. -/
def sendReceiveListDecode (raw : String) : List String :=
  unmarshalList raw "|"

/-- Decoding step of `Connection.sendReceiveObjectList` on the raw
reply: `[constructor(*o.split(",", **kwargs)) for o in sendReceiveList(...)]`
— the outer list uses the default separator `"|"`, each element is
split on `","` (bounded by `maxsplit` when given) and its fields are
passed positionally to the constructor, in the original order. -/
def sendReceiveObjectListDecode {β : Type} (constructor : List String → β)
    (raw : String) (maxsplit : Option Nat) : List β :=
  (sendReceiveListDecode raw).map (fun o => constructor (splitFields o maxsplit))

/-- `Minecraft.create`'s port resolution: when the `JRP_API_PORT`
environment variable is present, `int()` of its text replaces the port;
a `ValueError` from invalid text is swallowed and the supplied port is
kept. -/
def resolvePort (envPort : Option String) (port : Int) : Int :=
  match envPort with
  | Option.none => port
  | some s =>
    match pyIntParse s with
    | some n => n
    | Option.none => port

/-!
State model of the `Connection` class for the transport-channel claims.
`Connection.__init__` stores exactly a connected socket, `lastSent = ""`
and the `debug` flag; the class defines no attribute that records a
failure and no stored error, so the state carried across operations is
just these fields (the socket itself is abstracted: each operation is
given the outcome the socket produces for its blocking read).
-/

/-- The mutable attributes a `Connection` object carries between
operations: `self.lastSent` and `self.debug`.  There is no failure
flag and no stored error. -/
structure ConnState where
  lastSent : String
  debug : Bool
deriving DecidableEq, Repr

/-- `Connection.__init__` after a successful connect. -/
def connInit (debug : Bool) : ConnState :=
  { lastSent := "", debug := debug }

/-- What the socket does when `_receive` performs its blocking read:
either it yields a raw line, or the read raises an I/O error or
timeout. -/
inductive IOOutcome where
  | line : String → IOOutcome
  | ioError : IOOutcome
deriving DecidableEq, Repr

/-- Observable outcome of one `sendReceive` call: a returned string, a
raised `RequestError`, or a propagated I/O error / timeout. -/
inductive OpResult where
  | ok : String → OpResult
  | requestError : String → OpResult
  | ioError : OpResult
deriving DecidableEq, Repr

/-- One `sendReceive(cmd, *args)` call: `_send` encodes the frame,
drains, sets `self.lastSent` and writes; `_receive` then performs the
blocking read with outcome `io`.  An I/O error propagates to the caller;
nothing about it is recorded in the state. -/
def sendReceiveStep (st : ConnState) (cmd : String) (args : List PyVal)
    (io : IOOutcome) : OpResult × ConnState :=
  let sent := encodeRequest cmd args
  let st' : ConnState := { st with lastSent := sent }
  match io with
  | .ioError => (OpResult.ioError, st')
  | .line l =>
    match receive sent l with
    | .ok s => (OpResult.ok s, st')
    | .requestError msg => (OpResult.requestError msg, st')

/-- A sequence of `sendReceive` calls on one `Connection`, each with the
socket outcome of its read; returns the observable outcomes in order. -/
def runOps (st : ConnState) :
    List (String × List PyVal × IOOutcome) → List OpResult
  | [] => []
  | (cmd, args, io) :: rest =>
    let r := sendReceiveStep st cmd args io
    r.1 :: runOps r.2 rest

/-- A two-field record, standing for a caller-supplied object type of
`sendReceiveObjectList`; its constructor function takes the two fields
positionally. -/
structure Pair where
  a : String
  b : String
deriving DecidableEq, Repr

/-- The constructor function for `Pair`, taking the split fields
positionally: `(a, b) -> Pair(a, b)`. -/
def Pair.ofFields : List String → Pair :=
  fun fs => ⟨fs.headD "", (fs.drop 1).headD ""⟩

/-!
Spec-side definitions, written from the spec's words, for the
refinement claim about flattening: the spec's value universe has
numbers, text, `None` and nested sequences (no byte strings), and
flattening collects the non-sequence atoms depth first, left to right,
with text atomic.
-/

mutual

/-- Spec-side depth-first atom collection for one value: a nested
sequence is expanded recursively, every other value (number, text,
absent value) is an atom. -/
def dfsAtomsOne : PyVal → List PyVal
  | .list l => dfsAtoms l
  | e => [e]

/-- Spec-side depth-first, left-to-right atom collection for a
sequence of values. -/
def dfsAtoms : List PyVal → List PyVal
  | [] => []
  | e :: rest => dfsAtomsOne e ++ dfsAtoms rest

end

mutual

/-- No `bytes` value occurs anywhere in this value. -/
def bytesFreeOne : PyVal → Bool
  | .list l => bytesFree l
  | .bytes _ => false
  | _ => true

/-- No `bytes` value occurs anywhere in this sequence of values. -/
def bytesFree : List PyVal → Bool
  | [] => true
  | e :: rest => bytesFreeOne e && bytesFree rest

end

theorem flatten_append (l₁ l₂ : List PyVal) :
    flatten (l₁ ++ l₂) = flatten l₁ ++ flatten l₂ := by
  induction l₁ with
  | nil => simp [flatten]
  | cons e rest ih => simp [flatten, ih]

mutual

theorem flattenOne_no_containers : ∀ (e : PyVal), ∀ a ∈ flattenOne e,
    a.isBytes = false ∧ a.isList = false
  | .list l => by simpa [flattenOne] using flatten_no_containers l
  | .bytes bs => by
      intro a ha
      simp only [flattenOne, List.mem_map] at ha
      obtain ⟨b, _, rfl⟩ := ha
      simp [PyVal.isBytes, PyVal.isList]
  | .int n => by simp [flattenOne, PyVal.isBytes, PyVal.isList]
  | .str s => by simp [flattenOne, PyVal.isBytes, PyVal.isList]
  | .none => by simp [flattenOne, PyVal.isBytes, PyVal.isList]

theorem flatten_no_containers : ∀ (l : List PyVal), ∀ a ∈ flatten l,
    a.isBytes = false ∧ a.isList = false
  | [] => by simp [flatten]
  | e :: rest => by
      intro a ha
      simp only [flatten, List.mem_append] at ha
      rcases ha with h | h
      · exact flattenOne_no_containers e a h
      · exact flatten_no_containers rest a h

end

mutual

theorem flattenOne_eq_dfs : ∀ (e : PyVal), bytesFreeOne e = true →
    flattenOne e = dfsAtomsOne e
  | .list l, h => by
      simpa [flattenOne, dfsAtomsOne] using
        flatten_eq_dfs l (by simpa [bytesFreeOne] using h)
  | .bytes bs, h => by simp [bytesFreeOne] at h
  | .int n, _ => by simp [flattenOne, dfsAtomsOne]
  | .str s, _ => by simp [flattenOne, dfsAtomsOne]
  | .none, _ => by simp [flattenOne, dfsAtomsOne]

theorem flatten_eq_dfs : ∀ (l : List PyVal), bytesFree l = true →
    flatten l = dfsAtoms l
  | [], _ => by simp [flatten, dfsAtoms]
  | e :: rest, h => by
      have he : bytesFreeOne e = true := by
        simp [bytesFree, Bool.and_eq_true] at h
        exact h.1
      have hr : bytesFree rest = true := by
        simp [bytesFree, Bool.and_eq_true] at h
        exact h.2
      simp [flatten, dfsAtoms, flattenOne_eq_dfs e he, flatten_eq_dfs rest hr]

end

theorem applyVec3_length_ne_three {α : Type} :
    ∀ (l : List α), l.length ≠ 3 → applyVec3 l = PyResult.typeError
  | [], _ => rfl
  | [_], _ => rfl
  | [_, _], _ => rfl
  | [_, _, _], h => absurd rfl h
  | _ :: _ :: _ :: _ :: _, _ => rfl

theorem pyIntConv_no_typeError : ∀ (t : String), pyIntConv t ≠ PyResult.typeError := by
  intro t
  cases h : pyIntParse t <;> simp [pyIntConv, h]

/-- C1: `_receive` trims trailing newlines from the reply line; a result
exactly equal to the sentinel `"Fail"` raises `RequestError` whose
message carries the last-sent request text, while any other result —
including the empty string and the non-exact match `"Failure"` — is
returned verbatim. -/
theorem receive_sentinel_spec (lastSent line : String) :
    receive lastSent line =
      (if rstripNewline line = "Fail"
        then ReceiveResult.requestError (pyStrip lastSent ++ " failed")
        else ReceiveResult.ok (rstripNewline line))
    ∧ receive lastSent "Failure" = ReceiveResult.ok "Failure"
    ∧ receive lastSent "" = ReceiveResult.ok ""
    ∧ receive lastSent "Fail" = ReceiveResult.requestError (pyStrip lastSent ++ " failed") :=
  ⟨rfl, rfl, rfl, rfl⟩

/-- C2 counterexample: encoding command `"cmd"` with arguments
`[1, None, "x"]` does not produce `cmd(1,,x)\n`; the `None` argument is
rendered by `str()` as the literal token `None`. -/
theorem encode_none_counterexample :
    encodeRequest "cmd" [PyVal.int 1, PyVal.none, PyVal.str "x"] = "cmd(1,None,x)\n"
    ∧ encodeRequest "cmd" [PyVal.int 1, PyVal.none, PyVal.str "x"] ≠ "cmd(1,,x)\n" :=
  ⟨rfl, by decide⟩

/-- C2 amended: the request encoder joins the `str()` form of each
flattened element with `","` and wraps the result in
`command + "(" ... ")" + "\n"`; `str(None)` is the literal token
`"None"`, not an empty field, so encoding `"cmd"` with `[1, None, "x"]`
produces `cmd(1,None,x)\n`. -/
theorem encode_request_spec (cmd : String) (args : List PyVal) :
    encodeRequest cmd args
      = cmd ++ "(" ++ String.intercalate "," ((flatten args).map pyStr) ++ ")" ++ "\n"
    ∧ pyStr PyVal.none = "None"
    ∧ encodeRequest "cmd" [PyVal.int 1, PyVal.none, PyVal.str "x"] = "cmd(1,None,x)\n" :=
  ⟨rfl, rfl, rfl⟩

/-- C3: on any nesting of sequences and atoms that contains no byte
string, `flatten` yields exactly the atoms in depth-first left-to-right
order; a string is passed through as a single atom, and the spec's
example `[1, [2, [3, "ab"]], 4]` flattens to `[1, 2, 3, "ab", 4]`. -/
theorem flatten_dfs_atoms (l : List PyVal) (h : bytesFree l = true) :
    flatten l = dfsAtoms l
    ∧ (∀ s : String, flattenOne (PyVal.str s) = [PyVal.str s])
    ∧ flatten [PyVal.int 1,
        PyVal.list [PyVal.int 2, PyVal.list [PyVal.int 3, PyVal.str "ab"]],
        PyVal.int 4]
      = [PyVal.int 1, PyVal.int 2, PyVal.int 3, PyVal.str "ab", PyVal.int 4] :=
  ⟨flatten_eq_dfs l h, fun _ => rfl, rfl⟩

/-- C3 witness: the spec's example list is bytes-free and flattening it
agrees with the depth-first atom collection. -/
theorem flatten_dfs_atoms_witness :
    bytesFree [PyVal.int 1,
        PyVal.list [PyVal.int 2, PyVal.list [PyVal.int 3, PyVal.str "ab"]],
        PyVal.int 4] = true
    ∧ flatten [PyVal.int 1,
        PyVal.list [PyVal.int 2, PyVal.list [PyVal.int 3, PyVal.str "ab"]],
        PyVal.int 4]
      = dfsAtoms [PyVal.int 1,
        PyVal.list [PyVal.int 2, PyVal.list [PyVal.int 3, PyVal.str "ab"]],
        PyVal.int 4] :=
  ⟨rfl,
    (flatten_dfs_atoms [PyVal.int 1,
        PyVal.list [PyVal.int 2, PyVal.list [PyVal.int 3, PyVal.str "ab"]],
        PyVal.int 4] rfl).1⟩

/-- C4 counterexample: a reply whose four fields all parse, here
`"1,2,3,4"` with integer parsing, makes `_parseVec3` raise `TypeError`
from the 3-argument `Vec3` constructor (not caught by the
`except ValueError` handler) instead of returning the absent value. -/
theorem parseVec3_four_fields_raises :
    parseVec3 pyIntConv "1,2,3,4" = PyResult.typeError
    ∧ parseVec3 pyIntConv "1,2,3,4" ≠ PyResult.ok Option.none :=
  ⟨rfl, fun h => nomatch h⟩

/-- C4 amended: `_parseVec3` splits the text on `","` and parses each
field; if any field fails to parse (`ValueError`) it returns the absent
value without raising, and when the three fields parse it returns the
fully-populated vector; but when all fields parse and their number is
not 3, the constructor call raises `TypeError`, which is not caught. -/
theorem parseVec3_spec {α : Type} (conv : String → PyResult α) (s : String) :
    (mapConv conv (pySplit s ",") = PyResult.valueError →
      parseVec3 conv s = PyResult.ok Option.none)
    ∧ (∀ a b c, mapConv conv (pySplit s ",") = PyResult.ok [a, b, c] →
      parseVec3 conv s = PyResult.ok (some ⟨a, b, c⟩))
    ∧ (∀ l, mapConv conv (pySplit s ",") = PyResult.ok l → l.length ≠ 3 →
      parseVec3 conv s = PyResult.typeError) := by
  refine ⟨fun h => ?_, fun a b c h => ?_, fun l h hl => ?_⟩
  · simp [parseVec3, h]
  · simp [parseVec3, h, applyVec3]
  · simp [parseVec3, h, applyVec3_length_ne_three l hl]

/-- C4 witness: with integer parsing, `"1,2,bad"` has a failing field
and decodes to the absent value, and `"1,2,3"` decodes to the vector
`(1, 2, 3)`. -/
theorem parseVec3_spec_witness :
    mapConv pyIntConv (pySplit "1,2,bad" ",") = PyResult.valueError
    ∧ parseVec3 pyIntConv "1,2,bad" = PyResult.ok Option.none
    ∧ parseVec3 pyIntConv "1,2,3" = PyResult.ok (some ⟨1, 2, 3⟩) :=
  ⟨rfl, (parseVec3_spec pyIntConv "1,2,bad").1 rfl,
    (parseVec3_spec pyIntConv "1,2,3").2.1 1 2 3 rfl⟩

/-- C5: for a converter that raises only `ValueError` (as the numeric
converters do on a string argument), `_parseScalar` never raises: it
returns the parsed value on success and the absent value on parse
failure, and the absent value occurs only on parse failure, so a
caller can tell "no value" from a legitimately parsed zero. -/
theorem parseScalar_spec {α : Type} (conv : String → PyResult α)
    (hconv : ∀ t, conv t ≠ PyResult.typeError) (s : String) :
    (∃ r, parseScalar conv s = PyResult.ok r)
    ∧ (∀ a, conv s = PyResult.ok a → parseScalar conv s = PyResult.ok (some a))
    ∧ (conv s = PyResult.valueError → parseScalar conv s = PyResult.ok Option.none)
    ∧ (parseScalar conv s = PyResult.ok Option.none → conv s = PyResult.valueError) := by
  cases h : conv s with
  | ok a => exact ⟨⟨some a, by simp [parseScalar, h]⟩,
      fun b hb => by simp [parseScalar, h]; simpa [h] using hb,
      fun hv => by simp [h] at hv,
      fun hn => by simp [parseScalar, h] at hn⟩
  | valueError => exact ⟨⟨Option.none, by simp [parseScalar, h]⟩,
      fun b hb => by simp [h] at hb,
      fun _ => by simp [parseScalar, h],
      fun _ => rfl⟩
  | typeError => exact absurd h (hconv s)

/-- C5 witness: with Python's `int` as the converter, `"abc"` decodes
to the absent value and `"0"` decodes to the value `0`. -/
theorem parseScalar_spec_witness :
    parseScalar pyIntConv "abc" = PyResult.ok Option.none
    ∧ parseScalar pyIntConv "0" = PyResult.ok (some 0) :=
  ⟨(parseScalar_spec pyIntConv pyIntConv_no_typeError "abc").2.2.1 rfl,
    (parseScalar_spec pyIntConv pyIntConv_no_typeError "0").2.1 0 rfl⟩

/-- C6: `_unmarshalList` decodes the empty raw text to the empty list —
not to a one-element list holding the empty string — and any non-empty
raw text to its split on the separator; `sendReceiveList` uses the
default separator `"|"`. -/
theorem unmarshalList_spec (sep s : String) (h : s ≠ "") :
    unmarshalList "" sep = []
    ∧ unmarshalList "" sep ≠ [""]
    ∧ unmarshalList s sep = pySplit s sep
    ∧ sendReceiveListDecode s = pySplit s "|"
    ∧ unmarshalList "a|b|c" "|" = ["a", "b", "c"] := by
  refine ⟨rfl, ?_, ?_, ?_, rfl⟩
  · intro hc
    exact nomatch hc
  · simp [unmarshalList, h]
  · simp [sendReceiveListDecode, unmarshalList, h]

/-- C6 witness: the non-empty raw text `"a|b"` with separator `"|"`
splits into `["a", "b"]`. -/
theorem unmarshalList_spec_witness :
    "a|b" ≠ "" ∧ unmarshalList "a|b" "|" = ["a", "b"] :=
  ⟨by decide, ((unmarshalList_spec "|" "a|b" (by decide)).2.2.1).trans rfl⟩

/-- C7: the object-list decoder splits the raw reply on `"|"` via the
delimited-list decoder, splits each element on `","` (bounded by the
optional `maxsplit`) and passes the fields positionally to the
constructor, in the original element order; `"10,20|30,40"` with the
`Pair` constructor yields `[Pair(10,20), Pair(30,40)]`. -/
theorem sendReceiveObjectList_spec {β : Type} (constructor : List String → β)
    (raw : String) (maxsplit : Option Nat) :
    sendReceiveObjectListDecode constructor raw maxsplit
      = (unmarshalList raw "|").map (fun o => constructor (splitFields o maxsplit))
    ∧ splitFields "a,b,c,d" (some 2) = ["a", "b", "c,d"]
    ∧ sendReceiveObjectListDecode Pair.ofFields "10,20|30,40" Option.none
      = [⟨"10", "20"⟩, ⟨"30", "40"⟩] :=
  ⟨rfl, rfl, rfl⟩

/-- C8: when the port-override environment variable is present its text
is parsed with `int()` and replaces the port; text that does not parse
is ignored and the supplied port is kept, with no exception escaping
`Minecraft.create`. -/
theorem resolvePort_spec (s : String) (port : Int) :
    (∀ n, pyIntParse s = some n → resolvePort (some s) port = n)
    ∧ (pyIntParse s = Option.none → resolvePort (some s) port = port)
    ∧ resolvePort Option.none port = port := by
  refine ⟨fun n hn => ?_, fun hn => ?_, rfl⟩ <;> simp [resolvePort, hn]

/-- C8 witness: the override text `"25565"` replaces the supplied port
4711, and the invalid override text `"gibberish"` is ignored. -/
theorem resolvePort_spec_witness :
    pyIntParse "25565" = some 25565
    ∧ resolvePort (some "25565") 4711 = 25565
    ∧ pyIntParse "gibberish" = Option.none
    ∧ resolvePort (some "gibberish") 4711 = 4711 :=
  ⟨rfl, (resolvePort_spec "25565" 4711).1 25565 rfl,
    rfl, (resolvePort_spec "gibberish" 4711).2.1 rfl⟩

/-- C9 counterexample: a run in which the first `sendReceive` suffers an
I/O error and the next one nonetheless performs its blocking read and
returns a value — the supposed `Failed` state is not terminal and the
second operation does further I/O as if still connected. -/
theorem conn_no_failure_latch :
    runOps (connInit false)
      [("chat.post", [PyVal.str "hi"], IOOutcome.ioError),
        ("world.getBlock", [PyVal.int 0], IOOutcome.line "42\n")]
      = [OpResult.ioError, OpResult.ok "42"] := rfl

/-- C9 amended: the `Connection` stores no failure state at all — its
per-object state is exactly the last-sent request and the debug flag, an
I/O error propagates to the caller without being recorded, and the
outcome of every operation is independent of the state left by earlier
operations, so operations after a failure attempt I/O normally. -/
theorem conn_step_stateless (st₁ st₂ : ConnState) (cmd : String)
    (args : List PyVal) (io : IOOutcome) :
    (sendReceiveStep st₁ cmd args io).1 = (sendReceiveStep st₂ cmd args io).1
    ∧ (sendReceiveStep st₁ cmd args io).2
      = { lastSent := encodeRequest cmd args, debug := st₁.debug } := by
  cases io with
  | ioError => exact ⟨rfl, rfl⟩
  | line l =>
    cases h : receive (encodeRequest cmd args) l <;>
      simp [sendReceiveStep, h]

/-- C10: a `bytes` value inside the argument sequence is iterable and
not a `str`, so `flatten` decomposes it into its integer byte values in
place; consequently no `bytes` value ever survives into the flattened
output — e.g. `["s", b"ab"]` flattens to `["s", 97, 98]`. -/
theorem flatten_bytes_decomposed (l₁ l₂ : List PyVal) (bs : List Nat) :
    flatten (l₁ ++ PyVal.bytes bs :: l₂)
      = flatten l₁ ++ bs.map (fun b => PyVal.int (Int.ofNat b)) ++ flatten l₂
    ∧ (∀ a ∈ flatten (l₁ ++ PyVal.bytes bs :: l₂), a.isBytes = false)
    ∧ flatten [PyVal.str "s", PyVal.bytes [97, 98]]
      = [PyVal.str "s", PyVal.int 97, PyVal.int 98] := by
  refine ⟨?_, fun a ha => (flatten_no_containers _ a ha).1, rfl⟩
  rw [flatten_append]
  simp [flatten, flattenOne, List.append_assoc]

end Mcpi
